import Mathlib

/-!
Shallow embedding of two components of the myFormulai.com test-automation
repository, together with proofs of the specified properties.

Part 1: the retry/backoff helper `RetryHelper` from `src/playwright.config.ts`
(lines 150-260 of the bundled file): `retry`, `calculateDelay`.

Part 2: the structured run recorder `MCPContextManager` from
`src/mcp/MCPContextManager.ts`, with its data model from `src/mcp/MCPTypes.ts`.

Conventions of the embedding:
* JS timestamps (`new Date()` / `Date.now()`) are effect inputs, passed as an
  explicit `now : Nat` (milliseconds) parameter.
* A fallible async operation is a function `Nat → Except ε α` giving the
  outcome of its k-th invocation (1-based); `Except.error` models a
  throw/rejection with the thrown error as an opaque value of type `ε`,
  so equality of `ε` values models JS error-object identity.
* Calls to the `onRetry` observer are recorded in an event trace rather than
  invoking a callback; console logging is not modelled (it is stateless).
-/

namespace RetryHelper

/-- The `backoff` field of `RetryOptions`: `'linear' | 'exponential'`. -/
inductive Backoff where
  | linear
  | exponential
deriving DecidableEq, Repr

/-- `RetryHelper.calculateDelay(attempt, baseDelay, backoff)`
(src/playwright.config.ts lines 221-230):
exponential gives `baseDelay * 2^(attempt-1)`, otherwise `baseDelay * attempt`. -/
def calculateDelay (attempt baseDelay : Nat) (backoff : Backoff) : Nat :=
  match backoff with
  | Backoff.exponential => baseDelay * 2 ^ (attempt - 1)
  | Backoff.linear => baseDelay * attempt

/-- Outcome of a `RetryHelper.retry` call, as seen by the caller:
a returned value, a propagated error thrown by the operation, or the
synthetic fallback `new Error('Retry failed: Unknown error')` thrown when
`lastError` is still `null` after the loop (line 215). -/
inductive RetryResult (ε α : Type) where
  | ok : α → RetryResult ε α
  | err : ε → RetryResult ε α
  | fallbackErr : RetryResult ε α
deriving DecidableEq, Repr

/-- Observable behaviour of one `RetryHelper.retry` call: the outcome,
how many times the operation `fn` was invoked, and the arguments of the
`onRetry` observer calls in order. -/
structure RetryTrace (ε α : Type) where
  result : RetryResult ε α
  invocations : Nat
  onRetryCalls : List (Nat × ε)
deriving DecidableEq, Repr

/-- One pass of the `for (let attempt = 1; attempt <= maxRetries; attempt++)`
loop of `RetryHelper.retry` (src/playwright.config.ts lines 196-215).
`remaining` counts the loop iterations still allowed (`maxRetries - attempt + 1`),
`attempt` is the current 1-based attempt, `lastError` the current value of the
`lastError` variable, and `calls` the `onRetry` invocations so far.
When the loop is exhausted the function throws `lastError` if it is non-null,
else the synthetic fallback error (line 215). On a caught error, `onRetry`
is invoked only when `attempt < maxRetries` (lines 202-207). -/
def retryAux (op : Nat → Except ε α) (maxRetries : Nat) :
    Nat → Nat → Option ε → List (Nat × ε) → RetryTrace ε α
  | 0, _, lastError, calls =>
    { result := match lastError with
        | some e => RetryResult.err e
        | none => RetryResult.fallbackErr
      invocations := 0
      onRetryCalls := calls }
  | remaining + 1, attempt, _, calls =>
    match op attempt with
    | Except.ok v =>
      { result := RetryResult.ok v, invocations := 1, onRetryCalls := calls }
    | Except.error e =>
      let calls' := if attempt < maxRetries then calls ++ [(attempt, e)] else calls
      let rest := retryAux op maxRetries remaining (attempt + 1) (some e) calls'
      { rest with invocations := rest.invocations + 1 }

/-- `RetryHelper.retry(fn, options)` with `options.maxRetries = maxRetries`
(src/playwright.config.ts lines 189-216): run the loop from attempt 1 with
`lastError = null` and no observer calls yet. -/
def retry (op : Nat → Except ε α) (maxRetries : Nat) : RetryTrace ε α :=
  retryAux op maxRetries maxRetries 1 none []

/-! Unfolding equations for `retryAux`, phrased per outcome of the attempt. -/

theorem retryAux_zero (op : Nat → Except ε α) (m a : Nat) (le : Option ε)
    (calls : List (Nat × ε)) :
    retryAux op m 0 a le calls =
      { result := match le with
          | some e => RetryResult.err e
          | none => RetryResult.fallbackErr
        invocations := 0
        onRetryCalls := calls } := rfl

theorem retryAux_succ_ok (op : Nat → Except ε α) (m r a : Nat) (le : Option ε)
    (calls : List (Nat × ε)) (v : α) (h : op a = Except.ok v) :
    retryAux op m (r + 1) a le calls =
      { result := RetryResult.ok v, invocations := 1, onRetryCalls := calls } := by
  simp [retryAux, h]

theorem retryAux_succ_err (op : Nat → Except ε α) (m r a : Nat) (le : Option ε)
    (calls : List (Nat × ε)) (e : ε) (h : op a = Except.error e) :
    retryAux op m (r + 1) a le calls =
      { retryAux op m r (a + 1) (some e)
          (if a < m then calls ++ [(a, e)] else calls) with
        invocations :=
          (retryAux op m r (a + 1) (some e)
            (if a < m then calls ++ [(a, e)] else calls)).invocations + 1 } := by
  simp [retryAux, h]

/-- If the operation fails on every attempt `a, a+1, ..., a+r-1`, the loop
performs all `r` remaining invocations and ends up propagating the error of
the final attempt `a + r - 1`. -/
theorem retryAux_all_fail (op : Nat → Except ε α) (m : Nat) (errs : Nat → ε) :
    ∀ r : Nat, 1 ≤ r → ∀ (a : Nat) (le : Option ε) (calls : List (Nat × ε)),
    (∀ k, a ≤ k → k < a + r → op k = Except.error (errs k)) →
    (retryAux op m r a le calls).result = RetryResult.err (errs (a + r - 1)) ∧
    (retryAux op m r a le calls).invocations = r := by
  intro r
  induction r with
  | zero => intro h; exact absurd h (by omega)
  | succ r ih =>
    intro _ a le calls hfail
    have ha : op a = Except.error (errs a) := hfail a (Nat.le_refl a) (by omega)
    rcases Nat.eq_zero_or_pos r with hr | hr
    · subst hr
      rw [retryAux_succ_err op m 0 a le calls (errs a) ha]
      rw [retryAux_zero]
      exact ⟨rfl, rfl⟩
    · have hfail' : ∀ k, a + 1 ≤ k → k < a + 1 + r → op k = Except.error (errs k) := by
        intro k hk1 hk2
        exact hfail k (by omega) (by omega)
      have h2 := ih hr (a + 1) (some (errs a))
        (if a < m then calls ++ [(a, errs a)] else calls) hfail'
      rw [retryAux_succ_err op m r a le calls (errs a) ha]
      refine ⟨?_, ?_⟩
      · show (retryAux op m r (a + 1) (some (errs a))
          (if a < m then calls ++ [(a, errs a)] else calls)).result = _
        rw [h2.1]
        congr 1
        congr 1
        omega
      · show (retryAux op m r (a + 1) (some (errs a))
          (if a < m then calls ++ [(a, errs a)] else calls)).invocations + 1 = r + 1
        rw [h2.2]

/-- C1: For every maxAttempts `n ≥ 1`, an operation that fails on all `n`
attempts is invoked exactly `n` times by `RetryHelper.retry` and the error
thrown by the final (n-th) invocation is propagated to the caller unchanged:
the result is exactly the value `errs n` the n-th invocation threw, not a
wrapped or synthetic error. -/
theorem retry_all_fail_propagates_final_error {ε α : Type}
    (op : Nat → Except ε α) (errs : Nat → ε) (n : Nat)
    (hn : 1 ≤ n)
    (hfail : ∀ k, 1 ≤ k → k ≤ n → op k = Except.error (errs k)) :
    (retry op n).result = RetryResult.err (errs n) ∧
    (retry op n).invocations = n := by
  have h := retryAux_all_fail op n errs n hn 1 none []
    (fun k hk1 hk2 => hfail k hk1 (by omega))
  have hidx : 1 + n - 1 = n := by omega
  rw [hidx] at h
  exact h

/-- Closed witness for `retry_all_fail_propagates_final_error` at `n = 3`. -/
theorem retry_all_fail_propagates_final_error_witness :
    (retry (fun k => (Except.error k : Except Nat Unit)) 3).result =
      RetryResult.err 3 ∧
    (retry (fun k => (Except.error k : Except Nat Unit)) 3).invocations = 3 :=
  retry_all_fail_propagates_final_error (fun k => Except.error k) (fun k => k) 3
    (by decide) (fun k _ _ => rfl)

/-- If the operation fails at attempts `a, ..., a+j-1` and succeeds at attempt
`a + j`, with `j < r` iterations of headroom and `a + j ≤ m` (so every failed
attempt index is `< m` and triggers the observer), then the loop returns the
success value after `j + 1` invocations, having appended one observer call per
failed attempt, in attempt order. -/
theorem retryAux_fail_then_ok (op : Nat → Except ε α) (m : Nat) (errs : Nat → ε)
    (v : α) :
    ∀ j : Nat, ∀ (r a : Nat) (le : Option ε) (calls : List (Nat × ε)),
    j < r →
    (∀ k, a ≤ k → k < a + j → op k = Except.error (errs k)) →
    op (a + j) = Except.ok v →
    a + j ≤ m →
    retryAux op m r a le calls =
      { result := RetryResult.ok v
        invocations := j + 1
        onRetryCalls := calls ++ (List.range' a j).map (fun k => (k, errs k)) } := by
  intro j
  induction j with
  | zero =>
    intro r a le calls hjr hfail hok _
    obtain ⟨r', rfl⟩ : ∃ r', r = r' + 1 := ⟨r - 1, by omega⟩
    have ha : op a = Except.ok v := by simpa using hok
    rw [retryAux_succ_ok op m r' a le calls v ha]
    simp [List.range']
  | succ j ih =>
    intro r a le calls hjr hfail hok hm
    obtain ⟨r', rfl⟩ : ∃ r', r = r' + 1 := ⟨r - 1, by omega⟩
    have ha : op a = Except.error (errs a) := hfail a (Nat.le_refl a) (by omega)
    have ham : a < m := by omega
    rw [retryAux_succ_err op m r' a le calls (errs a) ha]
    have hfail' : ∀ k, a + 1 ≤ k → k < a + 1 + j → op k = Except.error (errs k) := by
      intro k hk1 hk2
      exact hfail k (by omega) (by omega)
    have hok' : op (a + 1 + j) = Except.ok v := by
      have : a + 1 + j = a + (j + 1) := by omega
      rw [this]; exact hok
    have h2 := ih r' (a + 1) (some (errs a))
      (calls ++ [(a, errs a)]) (by omega) hfail' hok' (by omega)
    simp only [if_pos ham, h2]
    have hrange : List.range' a (j + 1) = a :: List.range' (a + 1) j := rfl
    simp [hrange, List.append_assoc]

/-- C2: For every maxAttempts `n ≥ 1`, an operation that fails on its first
`n - 1` invocations (throwing `errs k` on invocation `k`) and succeeds on
invocation `n` with value `v` makes `RetryHelper.retry` return `v` after
exactly `n` invocations (so no attempt follows the first success), with the
`onRetry` observer invoked exactly `n - 1` times, once per failed attempt,
with the strictly increasing attempt indices `1, ..., n-1`, each paired with
the error that attempt threw. -/
theorem retry_fail_then_succeed {ε α : Type}
    (op : Nat → Except ε α) (errs : Nat → ε) (v : α) (n : Nat)
    (hn : 1 ≤ n)
    (hfail : ∀ k, 1 ≤ k → k ≤ n - 1 → op k = Except.error (errs k))
    (hok : op n = Except.ok v) :
    retry op n =
      { result := RetryResult.ok v
        invocations := n
        onRetryCalls := (List.range' 1 (n - 1)).map (fun k => (k, errs k)) } := by
  have hok' : op (1 + (n - 1)) = Except.ok v := by
    have : 1 + (n - 1) = n := by omega
    rw [this]; exact hok
  have h := retryAux_fail_then_ok op n errs v (n - 1) n 1 none []
    (by omega) (fun k hk1 hk2 => hfail k hk1 (by omega)) hok' (by omega)
  rw [retry, h]
  have : n - 1 + 1 = n := by omega
  simp [this]

/-- Closed witness for `retry_fail_then_succeed` at `n = 3`: failures on
attempts 1 and 2, success on attempt 3, observer called at (1, err 1) and
(2, err 2). -/
theorem retry_fail_then_succeed_witness :
    retry (fun k => if k < 3 then (Except.error k : Except Nat String)
      else Except.ok "done") 3 =
      { result := RetryResult.ok "done"
        invocations := 3
        onRetryCalls := [(1, 1), (2, 2)] } := by
  have h := retry_fail_then_succeed
    (fun k => if k < 3 then (Except.error k : Except Nat String)
      else Except.ok "done")
    (fun k => k) "done" 3 (by decide)
    (fun k _ hk2 => by
      have : k < 3 := by omega
      simp [this])
    (by simp)
  rw [h]
  rfl

/-- C3: For every 1-based attempt number `k ≥ 1` and initial delay `d`, the
delay `calculateDelay` computes for the retry following failed attempt `k`
is `d * k` under linear backoff and `d * 2^(k-1)` under exponential backoff
(the retry loop passes the just-failed attempt index at line 203). -/
theorem calculateDelay_formula (k d : Nat) (_hk : 1 ≤ k) :
    calculateDelay k d Backoff.linear = d * k ∧
    calculateDelay k d Backoff.exponential = d * 2 ^ (k - 1) :=
  ⟨rfl, rfl⟩

/-- Closed witness for `calculateDelay_formula` at `k = 3`, `d = 100`:
linear delay 300, exponential delay 400. -/
theorem calculateDelay_formula_witness :
    1 ≤ 3 ∧ calculateDelay 3 100 Backoff.linear = 100 * 3 ∧
      calculateDelay 3 100 Backoff.exponential = 100 * 2 ^ 2 :=
  ⟨by decide, calculateDelay_formula 3 100 (by decide)⟩

/-- With at least one loop iteration left, the loop never produces the
synthetic fallback error, and any error it produces was thrown by one of the
attempts it covers. -/
theorem retryAux_err_from_op (op : Nat → Except ε α) (m : Nat) :
    ∀ r : Nat, 1 ≤ r → ∀ (a : Nat) (le : Option ε) (calls : List (Nat × ε)),
    (retryAux op m r a le calls).result ≠ RetryResult.fallbackErr ∧
    (∀ e, (retryAux op m r a le calls).result = RetryResult.err e →
      ∃ k, a ≤ k ∧ k < a + r ∧ op k = Except.error e) := by
  intro r
  induction r with
  | zero => intro h; exact absurd h (by omega)
  | succ r ih =>
    intro _ a le calls
    cases hop : op a with
    | ok v =>
      rw [retryAux_succ_ok op m r a le calls v hop]
      exact ⟨by simp, by simp⟩
    | error e' =>
      rw [retryAux_succ_err op m r a le calls e' hop]
      rcases Nat.eq_zero_or_pos r with hr | hr
      · subst hr
        rw [retryAux_zero]
        refine ⟨by simp, ?_⟩
        intro e he
        simp only [RetryResult.err.injEq] at he
        exact ⟨a, Nat.le_refl a, by omega, he ▸ hop⟩
      · have h2 := ih hr (a + 1) (some e')
          (if a < m then calls ++ [(a, e')] else calls)
        refine ⟨h2.1, ?_⟩
        intro e he
        obtain ⟨k, hk1, hk2, hk3⟩ := h2.2 e he
        exact ⟨k, by omega, by omega, hk3⟩

/-- C9: With `maxRetries = 0` the operation is never invoked and the call
fails with the synthetic fallback error (`'Retry failed: Unknown error'`,
the generic no-attempts-made condition), with no observer calls; and for
every `maxRetries = n ≥ 1` the outcome is never the synthetic error, and any
error surfaced to the caller is an error actually thrown by one of the `n`
attempts of the operation. -/
theorem retry_zero_attempts_and_no_synthetic_error {ε α : Type}
    (op : Nat → Except ε α) (n : Nat) (hn : 1 ≤ n) :
    retry op 0 =
      { result := RetryResult.fallbackErr, invocations := 0, onRetryCalls := [] } ∧
    (retry op n).result ≠ RetryResult.fallbackErr ∧
    (∀ e, (retry op n).result = RetryResult.err e →
      ∃ k, 1 ≤ k ∧ k ≤ n ∧ op k = Except.error e) := by
  refine ⟨rfl, ?_, ?_⟩
  · exact (retryAux_err_from_op op n n hn 1 none []).1
  · intro e he
    obtain ⟨k, hk1, hk2, hk3⟩ := (retryAux_err_from_op op n n hn 1 none []).2 e he
    exact ⟨k, hk1, by omega, hk3⟩

/-- Closed witness for `retry_zero_attempts_and_no_synthetic_error` at an
always-failing operation and `n = 2`. -/
theorem retry_zero_attempts_and_no_synthetic_error_witness :
    retry (fun k => (Except.error k : Except Nat Unit)) 0 =
      { result := RetryResult.fallbackErr, invocations := 0, onRetryCalls := [] } ∧
    (retry (fun k => (Except.error k : Except Nat Unit)) 2).result ≠
      RetryResult.fallbackErr ∧
    (∀ e, (retry (fun k => (Except.error k : Except Nat Unit)) 2).result =
        RetryResult.err e →
      ∃ k, 1 ≤ k ∧ k ≤ 2 ∧ (fun k => (Except.error k : Except Nat Unit)) k =
        Except.error e) :=
  retry_zero_attempts_and_no_synthetic_error
    (fun k => (Except.error k : Except Nat Unit)) 2 (by decide)

end RetryHelper

namespace MCP

/-- A JS `Record<string, any>` metadata bag, modelled as an association list
of string keys to opaque string values. -/
abbrev Meta : Type := List (String × String)

/-- JS object-spread merge `{ ...a, ...b }`: entries of `b` override entries
of `a` with the same key. -/
def mergeMeta (a b : Meta) : Meta :=
  a.filter (fun p => (b.find? (fun q => q.1 == p.1)).isNone) ++ b

/-- Assignment `m[k] = v` on a JS `Record<string, number>`. -/
def setKey (m : List (String × Nat)) (k : String) (v : Nat) : List (String × Nat) :=
  if m.any (fun p => p.1 == k) then
    m.map (fun p => if p.1 == k then (k, v) else p)
  else m ++ [(k, v)]

/-- `TestStep.status` (src/mcp/MCPTypes.ts):
`'pending' | 'in-progress' | 'completed' | 'failed' | 'skipped'`. -/
inductive StepStatus where
  | pending
  | inProgress
  | completed
  | failed
  | skipped
deriving DecidableEq, Repr

/-- `TestStep` (src/mcp/MCPTypes.ts). Timestamps are `Nat` milliseconds. -/
structure TestStep where
  stepNumber : Nat
  action : String
  description : String
  timestamp : Nat
  duration : Option Nat
  status : StepStatus
  metadata : Option Meta
  error : Option String
  screenshot : Option String
deriving DecidableEq

/-- `TestMetadata.status` (src/mcp/MCPTypes.ts):
`'started' | 'running' | 'passed' | 'failed' | 'skipped'`. -/
inductive RunStatus where
  | started
  | running
  | passed
  | failed
  | skipped
deriving DecidableEq, Repr

/-- `TestMetadata` (src/mcp/MCPTypes.ts). `duration` is `Int` because
`saveContext` stores `performance.totalDuration`, an end-minus-start
difference. -/
structure TestMetadata where
  testId : String
  testName : String
  testFile : String
  feature : String
  tags : List String
  environment : String
  browser : String
  startedAt : Nat
  completedAt : Option Nat
  duration : Option Int
  status : RunStatus
  retryCount : Nat
deriving DecidableEq

/-- `APIContext` (src/mcp/MCPTypes.ts); request/response bodies are kept as
opaque strings. -/
structure APIContext where
  requestId : String
  method : String
  url : String
  requestHeaders : Option Meta
  requestBody : Option String
  responseStatus : Option Nat
  responseHeaders : Option Meta
  responseBody : Option String
  timestamp : Nat
  duration : Option Nat
deriving DecidableEq

/-- `UserFlow.status` (src/mcp/MCPTypes.ts). -/
inductive FlowStatus where
  | started
  | inProgress
  | completed
  | failed
deriving DecidableEq, Repr

/-- `UserFlow` (src/mcp/MCPTypes.ts). -/
structure UserFlow where
  flowId : String
  flowName : String
  description : String
  steps : List String
  startedAt : Nat
  completedAt : Option Nat
  status : FlowStatus
  metadata : Option Meta
deriving DecidableEq

/-- An entry of `MCPContext.assertions` (src/mcp/MCPTypes.ts). -/
structure Assertion where
  description : String
  passed : Bool
  timestamp : Nat
  error : Option String
deriving DecidableEq

/-- An entry of `MCPContext.errors` (src/mcp/MCPTypes.ts). -/
structure ErrorEntry where
  message : String
  stack : Option String
  timestamp : Nat
  step : Option Nat
deriving DecidableEq

/-- `MCPContext.performance` (src/mcp/MCPTypes.ts). -/
structure Performance where
  pageLoadTimes : List (String × Nat)
  apiResponseTimes : List (String × Nat)
  totalDuration : Int
deriving DecidableEq

/-- `MCPContext` (src/mcp/MCPTypes.ts). -/
structure MCPContext where
  metadata : TestMetadata
  userFlow : Option UserFlow
  steps : List TestStep
  apiCalls : List APIContext
  assertions : List Assertion
  errors : List ErrorEntry
  screenshots : List String
  performance : Performance
  customData : Option Meta
deriving DecidableEq

/-- `MCPConfig` (src/mcp/MCPTypes.ts). -/
structure MCPConfig where
  enabled : Bool
  storagePath : String
  captureScreenshots : Bool
  captureApiCalls : Bool
  capturePerformance : Bool
  maxContextSize : Nat
deriving DecidableEq

/-- `Partial<MCPConfig>`: the constructor's optional `config` argument;
`none` fields are absent and fall back to the defaults. -/
structure PartialMCPConfig where
  enabled : Option Bool := none
  storagePath : Option String := none
  captureScreenshots : Option Bool := none
  captureApiCalls : Option Bool := none
  capturePerformance : Option Bool := none
  maxContextSize : Option Nat := none
deriving DecidableEq

/-- The constructor's default configuration
(src/mcp/MCPContextManager.ts lines 17-23), with `path.resolve(process.cwd(),
'mcp', 'context')` taking the working directory as the effect input `cwd`. -/
def defaultMCPConfig (cwd : String) : MCPConfig :=
  { enabled := true
    storagePath := cwd ++ "/mcp/context"
    captureScreenshots := true
    captureApiCalls := true
    capturePerformance := true
    maxContextSize := 1000 }

/-- The spread merge `{ ...defaults, ...config }` of the constructor
(src/mcp/MCPContextManager.ts line 24). -/
def mergeConfig (d : MCPConfig) (p : PartialMCPConfig) : MCPConfig :=
  { enabled := p.enabled.getD d.enabled
    storagePath := p.storagePath.getD d.storagePath
    captureScreenshots := p.captureScreenshots.getD d.captureScreenshots
    captureApiCalls := p.captureApiCalls.getD d.captureApiCalls
    capturePerformance := p.capturePerformance.getD d.capturePerformance
    maxContextSize := p.maxContextSize.getD d.maxContextSize }

/-- A character kept by the first regex of `sanitizeFileName`
(`/[^a-zA-Z0-9\s-]/g` removed; ASCII reading of the classes). -/
def keepChar (c : Char) : Bool :=
  c.isAlpha || c.isDigit || c.isWhitespace || c == '-'

/-- The second regex of `sanitizeFileName` (`/\s+/g → '-'`): each maximal
run of whitespace becomes a single `'-'`. `prevWs` records whether the
previous character was part of a whitespace run. -/
def collapseWsAux (prevWs : Bool) : List Char → List Char
  | [] => []
  | c :: cs =>
    if c.isWhitespace then
      (if prevWs then [] else ['-']) ++ collapseWsAux true cs
    else c :: collapseWsAux false cs

/-- `MCPContextManager.sanitizeFileName` (src/mcp/MCPContextManager.ts lines
75-81): strip unsafe characters, collapse whitespace runs to `'-'`,
lowercase, truncate to 100 characters. -/
def sanitizeFileName (fileName : String) : String :=
  String.mk (((collapseWsAux false (fileName.data.filter keepChar)).map
    Char.toLower).take 100)

/-- The mutable state of one `MCPContextManager` instance
(src/mcp/MCPContextManager.ts lines 9-13). -/
structure MCPContextManager where
  context : MCPContext
  config : MCPConfig
  currentStepNumber : Nat
  contextFilePath : String
deriving DecidableEq

/-- The `MCPContextManager` constructor (src/mcp/MCPContextManager.ts lines
15-53): merge the config over defaults, initialise an empty context around
the given metadata, and fix the per-run artifact path from the sanitized
test name and a timestamp string (an effect input). The side effect of
`ensureStorageDirectory` (directory creation) records no state and is not
modelled. -/
def mkMCPContextManager (testMetadata : TestMetadata) (cfg : PartialMCPConfig)
    (cwd timestamp : String) : MCPContextManager :=
  let config := mergeConfig (defaultMCPConfig cwd) cfg
  { context :=
      { metadata := testMetadata
        userFlow := none
        steps := []
        apiCalls := []
        assertions := []
        errors := []
        screenshots := []
        performance := { pageLoadTimes := [], apiResponseTimes := [], totalDuration := 0 }
        customData := none }
    config := config
    currentStepNumber := 0
    contextFilePath := config.storagePath ++ "/test-contexts/" ++
      sanitizeFileName testMetadata.testName ++ "-" ++ timestamp ++ ".json" }

/-- `startStep(action, description, metadata)` (src/mcp/MCPContextManager.ts
lines 86-102): returns 0 when disabled, otherwise increments the ordinal
counter, appends an in-progress step stamped with `now`, and returns the new
ordinal. -/
def startStep (m : MCPContextManager) (action description : String)
    (metadata : Option Meta) (now : Nat) : MCPContextManager × Nat :=
  if !m.config.enabled then (m, 0)
  else
    let n := m.currentStepNumber + 1
    let step : TestStep :=
      { stepNumber := n
        action := action
        description := description
        timestamp := now
        duration := none
        status := StepStatus.inProgress
        metadata := metadata
        error := none
        screenshot := none }
    ({ m with
        currentStepNumber := n
        context := { m.context with steps := m.context.steps ++ [step] } }, n)

/-- In-place mutation of the step found by
`this.context.steps.find(s => s.stepNumber === stepNumber)`: rewrite the
first list element satisfying `p` by `f`, leave the list unchanged when no
element matches. -/
def updateFirstStep (p : TestStep → Bool) (f : TestStep → TestStep) :
    List TestStep → List TestStep
  | [] => []
  | s :: rest => if p s then f s :: rest else s :: updateFirstStep p f rest

/-- `completeStep(stepNumber, duration, metadata)`
(src/mcp/MCPContextManager.ts lines 107-118): if a step with that ordinal
exists, mark it completed, set its duration, and spread-merge the metadata
when given. -/
def completeStep (m : MCPContextManager) (stepNumber : Nat)
    (duration : Option Nat) (metadata : Option Meta) : MCPContextManager :=
  if !m.config.enabled then m
  else
    { m with context := { m.context with
        steps := updateFirstStep (fun s => s.stepNumber == stepNumber)
          (fun s =>
            { s with
              status := StepStatus.completed
              duration := duration
              metadata := match metadata with
                | some md => some (mergeMeta (s.metadata.getD []) md)
                | none => s.metadata })
          m.context.steps } }

/-- `addError(message, step, stack)` (src/mcp/MCPContextManager.ts lines
194-203): append an error entry stamped with `now`. -/
def addError (m : MCPContextManager) (message : String) (step : Option Nat)
    (stack : Option String) (now : Nat) : MCPContextManager :=
  if !m.config.enabled then m
  else
    { m with context := { m.context with
        errors := m.context.errors ++
          [{ message := message, stack := stack, timestamp := now, step := step }] } }

/-- `failStep(stepNumber, error, metadata)` (src/mcp/MCPContextManager.ts
lines 123-136): if a step with that ordinal exists, mark it failed, record
its error and spread-merge the metadata when given; then unconditionally call
`this.addError(error, stepNumber)`. -/
def failStep (m : MCPContextManager) (stepNumber : Nat) (error : String)
    (metadata : Option Meta) (now : Nat) : MCPContextManager :=
  if !m.config.enabled then m
  else
    let m' := { m with context := { m.context with
      steps := updateFirstStep (fun s => s.stepNumber == stepNumber)
        (fun s =>
          { s with
            status := StepStatus.failed
            error := some error
            metadata := match metadata with
              | some md => some (mergeMeta (s.metadata.getD []) md)
              | none => s.metadata })
        m.context.steps } }
    addError m' error (some stepNumber) none now

/-- `setUserFlow(flow)` (src/mcp/MCPContextManager.ts lines 141-146). -/
def setUserFlow (m : MCPContextManager) (flow : UserFlow) : MCPContextManager :=
  if !m.config.enabled then m
  else { m with context := { m.context with userFlow := some flow } }

/-- `updateUserFlowStatus(status, metadata)` (src/mcp/MCPContextManager.ts
lines 151-161). -/
def updateUserFlowStatus (m : MCPContextManager) (status : FlowStatus)
    (metadata : Option Meta) (now : Nat) : MCPContextManager :=
  if !m.config.enabled then m
  else
    match m.context.userFlow with
    | none => m
    | some flow =>
      let flow := { flow with status := status }
      let flow :=
        if status == FlowStatus.completed || status == FlowStatus.failed then
          { flow with completedAt := some now }
        else flow
      let flow := match metadata with
        | some md => { flow with metadata := some (mergeMeta (flow.metadata.getD []) md) }
        | none => flow
      { m with context := { m.context with userFlow := some flow } }

/-- `addAPICall(apiContext)` (src/mcp/MCPContextManager.ts lines 166-175):
append the call; record its response time only when `apiContext.duration`
is truthy (present and non-zero, per JS truthiness). -/
def addAPICall (m : MCPContextManager) (apiContext : APIContext) :
    MCPContextManager :=
  if !m.config.enabled || !m.config.captureApiCalls then m
  else
    let ctx := { m.context with apiCalls := m.context.apiCalls ++ [apiContext] }
    let ctx :=
      if apiContext.duration.getD 0 != 0 then
        { ctx with performance := { ctx.performance with
            apiResponseTimes := setKey ctx.performance.apiResponseTimes
              apiContext.url (apiContext.duration.getD 0) } }
      else ctx
    { m with context := ctx }

/-- `addAssertion(description, status, error)` (src/mcp/MCPContextManager.ts
lines 180-189). -/
def addAssertion (m : MCPContextManager) (description : String)
    (passed : Bool) (error : Option String) (now : Nat) : MCPContextManager :=
  if !m.config.enabled then m
  else
    { m with context := { m.context with
        assertions := m.context.assertions ++
          [{ description := description, passed := passed, timestamp := now,
             error := error }] } }

/-- `addScreenshot(screenshotPath)` (src/mcp/MCPContextManager.ts lines
208-212). -/
def addScreenshot (m : MCPContextManager) (screenshotPath : String) :
    MCPContextManager :=
  if !m.config.enabled || !m.config.captureScreenshots then m
  else
    { m with context := { m.context with
        screenshots := m.context.screenshots ++ [screenshotPath] } }

/-- `recordPageLoadTime(url, loadTime)` (src/mcp/MCPContextManager.ts lines
217-221). -/
def recordPageLoadTime (m : MCPContextManager) (url : String) (loadTime : Nat) :
    MCPContextManager :=
  if !m.config.enabled || !m.config.capturePerformance then m
  else
    { m with context := { m.context with
        performance := { m.context.performance with
          pageLoadTimes := setKey m.context.performance.pageLoadTimes url loadTime } } }

/-- `Partial<TestMetadata>`: the argument of `updateMetadata`. A `some`
field is present in the update object. -/
structure PartialTestMetadata where
  testId : Option String := none
  testName : Option String := none
  testFile : Option String := none
  feature : Option String := none
  tags : Option (List String) := none
  environment : Option String := none
  browser : Option String := none
  startedAt : Option Nat := none
  completedAt : Option Nat := none
  duration : Option Int := none
  status : Option RunStatus := none
  retryCount : Option Nat := none
deriving DecidableEq

/-- The spread merge `{ ...this.context.metadata, ...updates }` of
`updateMetadata`. -/
def applyMetadataUpdates (md : TestMetadata) (u : PartialTestMetadata) :
    TestMetadata :=
  { testId := u.testId.getD md.testId
    testName := u.testName.getD md.testName
    testFile := u.testFile.getD md.testFile
    feature := u.feature.getD md.feature
    tags := u.tags.getD md.tags
    environment := u.environment.getD md.environment
    browser := u.browser.getD md.browser
    startedAt := u.startedAt.getD md.startedAt
    completedAt := match u.completedAt with
      | some v => some v
      | none => md.completedAt
    duration := match u.duration with
      | some v => some v
      | none => md.duration
    status := u.status.getD md.status
    retryCount := u.retryCount.getD md.retryCount }

/-- `updateMetadata(updates)` (src/mcp/MCPContextManager.ts lines 226-230). -/
def updateMetadata (m : MCPContextManager) (updates : PartialTestMetadata) :
    MCPContextManager :=
  if !m.config.enabled then m
  else
    { m with context := { m.context with
        metadata := applyMetadataUpdates m.context.metadata updates } }

/-- `setCustomData(key, value)` (src/mcp/MCPContextManager.ts lines 271-278). -/
def setCustomData (m : MCPContextManager) (key value : String) :
    MCPContextManager :=
  if !m.config.enabled then m
  else
    { m with context := { m.context with
        customData := some (setKeyS (m.context.customData.getD []) key value) } }
where
  /-- assignment on a `Record<string, any>` -/
  setKeyS (l : Meta) (k v : String) : Meta :=
    if l.any (fun p => p.1 == k) then
      l.map (fun p => if p.1 == k then (k, v) else p)
    else l ++ [(k, v)]

/-- The `try` block of `saveContext` (src/mcp/MCPContextManager.ts lines
245-262): stamp `completedAt := now` and copy the current
`performance.totalDuration` into `metadata.duration` (line 248, before the
recomputation), recompute `performance.totalDuration` as `completedAt -
startedAt` (lines 251-253, `endTime` comes from the `completedAt` just
stamped), then attempt the `fs.writeFileSync` of the serialized context.
The effect input `writeError` is `some e` when serialization or the write
throws `e`; the pair returned is the manager state after the in-place
mutations (which precede the write) together with the write's outcome. -/
def saveContextBody (m : MCPContextManager) (now : Nat)
    (writeError : Option String) : MCPContextManager × Except String String :=
  let md := { m.context.metadata with
    completedAt := some now
    duration := some m.context.performance.totalDuration }
  let m' := { m with context := { m.context with
      metadata := md
      performance := { m.context.performance with
        totalDuration := (now : Int) - (md.startedAt : Int) } } }
  match writeError with
  | none => (m', Except.ok m.contextFilePath)
  | some e => (m', Except.error e)

/-- `saveContext()` (src/mcp/MCPContextManager.ts lines 242-266): nothing
happens when disabled; otherwise run the `try` block, and on a thrown write
error fall into the `catch`, which only logs (line 264) and returns. The
second component is the path of the artifact file successfully written, if
any. -/
def saveContext (m : MCPContextManager) (now : Nat)
    (writeError : Option String) : MCPContextManager × Option String :=
  if !m.config.enabled then (m, none)
  else
    match saveContextBody m now writeError with
    | (m', Except.ok p) => (m', some p)
    | (m', Except.error _) => (m', none)

end MCP

namespace MCP

/-! Facts needed about the mutators: none of them changes the configuration,
and only `startStep` changes the ordinal counter. -/

theorem startStep_enabled (m : MCPContextManager) (a d : String)
    (md : Option Meta) (now : Nat) (h : m.config.enabled = true) :
    (startStep m a d md now).2 = m.currentStepNumber + 1 ∧
    (startStep m a d md now).1.currentStepNumber = m.currentStepNumber + 1 ∧
    (startStep m a d md now).1.config = m.config := by
  refine ⟨?_, ?_, ?_⟩ <;> simp [startStep, h]

theorem completeStep_preserves (m : MCPContextManager) (n : Nat)
    (d : Option Nat) (md : Option Meta) :
    (completeStep m n d md).config = m.config ∧
    (completeStep m n d md).currentStepNumber = m.currentStepNumber := by
  cases hb : m.config.enabled <;> simp [completeStep, hb]

theorem addError_preserves (m : MCPContextManager) (msg : String)
    (st : Option Nat) (stk : Option String) (now : Nat) :
    (addError m msg st stk now).config = m.config ∧
    (addError m msg st stk now).currentStepNumber = m.currentStepNumber := by
  cases hb : m.config.enabled <;> simp [addError, hb]

theorem failStep_preserves (m : MCPContextManager) (n : Nat) (e : String)
    (md : Option Meta) (now : Nat) :
    (failStep m n e md now).config = m.config ∧
    (failStep m n e md now).currentStepNumber = m.currentStepNumber := by
  cases hb : m.config.enabled <;> simp [failStep, addError, hb]

theorem addAPICall_preserves (m : MCPContextManager) (a : APIContext) :
    (addAPICall m a).config = m.config ∧
    (addAPICall m a).currentStepNumber = m.currentStepNumber := by
  cases hb : m.config.enabled <;> cases hc : m.config.captureApiCalls <;>
    simp [addAPICall, hb, hc]

theorem addAssertion_preserves (m : MCPContextManager) (d : String)
    (passed : Bool) (e : Option String) (now : Nat) :
    (addAssertion m d passed e now).config = m.config ∧
    (addAssertion m d passed e now).currentStepNumber = m.currentStepNumber := by
  cases hb : m.config.enabled <;> simp [addAssertion, hb]

theorem addScreenshot_preserves (m : MCPContextManager) (p : String) :
    (addScreenshot m p).config = m.config ∧
    (addScreenshot m p).currentStepNumber = m.currentStepNumber := by
  cases hb : m.config.enabled <;> cases hc : m.config.captureScreenshots <;>
    simp [addScreenshot, hb, hc]

theorem recordPageLoadTime_preserves (m : MCPContextManager) (u : String)
    (t : Nat) :
    (recordPageLoadTime m u t).config = m.config ∧
    (recordPageLoadTime m u t).currentStepNumber = m.currentStepNumber := by
  cases hb : m.config.enabled <;> cases hc : m.config.capturePerformance <;>
    simp [recordPageLoadTime, hb, hc]

theorem updateMetadata_preserves (m : MCPContextManager)
    (u : PartialTestMetadata) :
    (updateMetadata m u).config = m.config ∧
    (updateMetadata m u).currentStepNumber = m.currentStepNumber := by
  cases hb : m.config.enabled <;> simp [updateMetadata, hb]

theorem saveContext_preserves (m : MCPContextManager) (now : Nat)
    (we : Option String) :
    (saveContext m now we).1.config = m.config ∧
    (saveContext m now we).1.currentStepNumber = m.currentStepNumber ∧
    (saveContext m now we).1.contextFilePath = m.contextFilePath := by
  cases hb : m.config.enabled <;> cases we <;>
    simp [saveContext, saveContextBody, hb]

/-- Any artifact path `saveContext` reports written is the manager's fixed
per-run `contextFilePath`. -/
theorem saveContext_writes_only_filePath (m : MCPContextManager) (now : Nat)
    (we : Option String) (p : String) (h : (saveContext m now we).2 = some p) :
    p = m.contextFilePath := by
  cases hb : m.config.enabled <;> cases we <;>
    simp [saveContext, saveContextBody, hb] at h
  exact h.symm

/-- One call a test makes on its recorder during a run: a mutator, or
`saveContext` with its write outcome. The `Nat` paired with each op in a run
is the wall-clock `now` of that call. -/
inductive MCPOp where
  | startStepOp (action description : String) (md : Option Meta)
  | completeStepOp (n : Nat) (d : Option Nat) (md : Option Meta)
  | failStepOp (n : Nat) (e : String) (md : Option Meta)
  | addAPICallOp (a : APIContext)
  | addAssertionOp (d : String) (passed : Bool) (e : Option String)
  | addErrorOp (msg : String) (st : Option Nat) (stk : Option String)
  | addScreenshotOp (p : String)
  | recordPageLoadTimeOp (u : String) (t : Nat)
  | updateMetadataOp (u : PartialTestMetadata)
  | saveContextOp (we : Option String)
deriving DecidableEq

/-- Apply a sequence of recorder calls, collecting the ordinals returned by
the `startStep` calls in order. -/
def runOps : MCPContextManager → List (MCPOp × Nat) → MCPContextManager × List Nat
  | m, [] => (m, [])
  | m, (MCPOp.startStepOp a d md, now) :: rest =>
    let s := startStep m a d md now
    let r := runOps s.1 rest
    (r.1, s.2 :: r.2)
  | m, (MCPOp.completeStepOp n d md, _) :: rest => runOps (completeStep m n d md) rest
  | m, (MCPOp.failStepOp n e md, now) :: rest => runOps (failStep m n e md now) rest
  | m, (MCPOp.addAPICallOp a, _) :: rest => runOps (addAPICall m a) rest
  | m, (MCPOp.addAssertionOp d p e, now) :: rest => runOps (addAssertion m d p e now) rest
  | m, (MCPOp.addErrorOp msg st stk, now) :: rest => runOps (addError m msg st stk now) rest
  | m, (MCPOp.addScreenshotOp p, _) :: rest => runOps (addScreenshot m p) rest
  | m, (MCPOp.recordPageLoadTimeOp u t, _) :: rest => runOps (recordPageLoadTime m u t) rest
  | m, (MCPOp.updateMetadataOp u, _) :: rest => runOps (updateMetadata m u) rest
  | m, (MCPOp.saveContextOp we, now) :: rest => runOps (saveContext m now we).1 rest

/-- The number of `startStep` calls in a sequence of recorder calls. -/
def countStartSteps : List (MCPOp × Nat) → Nat
  | [] => 0
  | (MCPOp.startStepOp _ _ _, _) :: rest => countStartSteps rest + 1
  | (MCPOp.completeStepOp _ _ _, _) :: rest => countStartSteps rest
  | (MCPOp.failStepOp _ _ _, _) :: rest => countStartSteps rest
  | (MCPOp.addAPICallOp _, _) :: rest => countStartSteps rest
  | (MCPOp.addAssertionOp _ _ _, _) :: rest => countStartSteps rest
  | (MCPOp.addErrorOp _ _ _, _) :: rest => countStartSteps rest
  | (MCPOp.addScreenshotOp _, _) :: rest => countStartSteps rest
  | (MCPOp.recordPageLoadTimeOp _ _, _) :: rest => countStartSteps rest
  | (MCPOp.updateMetadataOp _, _) :: rest => countStartSteps rest
  | (MCPOp.saveContextOp _, _) :: rest => countStartSteps rest

theorem range'_succ_eq (a n : Nat) :
    List.range' a (n + 1) = a :: List.range' (a + 1) n := rfl

/-- On an enabled recorder, a sequence of recorder calls makes `startStep`
return the consecutive ordinals `currentStepNumber + 1, currentStepNumber + 2,
...`, one per `startStep` call, whatever the other calls do. -/
theorem runOps_ordinals (ops : List (MCPOp × Nat)) :
    ∀ m : MCPContextManager, m.config.enabled = true →
    (runOps m ops).2 =
      List.range' (m.currentStepNumber + 1) (countStartSteps ops) := by
  induction ops with
  | nil => intro m _; rfl
  | cons hd rest ih =>
    intro m hen
    obtain ⟨op, now⟩ := hd
    cases op with
    | startStepOp a d md =>
      have hs := startStep_enabled m a d md now hen
      have ih' := ih (startStep m a d md now).1 (by rw [hs.2.2]; exact hen)
      simp only [runOps, countStartSteps]
      rw [ih', hs.1, hs.2.1, range'_succ_eq]
    | completeStepOp n d md =>
      have hp := completeStep_preserves m n d md
      have ih' := ih (completeStep m n d md) (by rw [hp.1]; exact hen)
      simp only [runOps, countStartSteps]
      rw [ih', hp.2]
    | failStepOp n e md =>
      have hp := failStep_preserves m n e md now
      have ih' := ih (failStep m n e md now) (by rw [hp.1]; exact hen)
      simp only [runOps, countStartSteps]
      rw [ih', hp.2]
    | addAPICallOp a =>
      have hp := addAPICall_preserves m a
      have ih' := ih (addAPICall m a) (by rw [hp.1]; exact hen)
      simp only [runOps, countStartSteps]
      rw [ih', hp.2]
    | addAssertionOp d p e =>
      have hp := addAssertion_preserves m d p e now
      have ih' := ih (addAssertion m d p e now) (by rw [hp.1]; exact hen)
      simp only [runOps, countStartSteps]
      rw [ih', hp.2]
    | addErrorOp msg st stk =>
      have hp := addError_preserves m msg st stk now
      have ih' := ih (addError m msg st stk now) (by rw [hp.1]; exact hen)
      simp only [runOps, countStartSteps]
      rw [ih', hp.2]
    | addScreenshotOp p =>
      have hp := addScreenshot_preserves m p
      have ih' := ih (addScreenshot m p) (by rw [hp.1]; exact hen)
      simp only [runOps, countStartSteps]
      rw [ih', hp.2]
    | recordPageLoadTimeOp u t =>
      have hp := recordPageLoadTime_preserves m u t
      have ih' := ih (recordPageLoadTime m u t) (by rw [hp.1]; exact hen)
      simp only [runOps, countStartSteps]
      rw [ih', hp.2]
    | updateMetadataOp u =>
      have hp := updateMetadata_preserves m u
      have ih' := ih (updateMetadata m u) (by rw [hp.1]; exact hen)
      simp only [runOps, countStartSteps]
      rw [ih', hp.2]
    | saveContextOp we =>
      have hp := saveContext_preserves m now we
      have ih' := ih (saveContext m now we).1 (by rw [hp.1]; exact hen)
      simp only [runOps, countStartSteps]
      rw [ih', hp.2.1]

/-! Concrete fixtures used by witnesses and counterexamples. -/

/-- A concrete `TestMetadata` as the hooks build it at test start. -/
def sampleMetadata : TestMetadata :=
  { testId := "t1"
    testName := "sample test"
    testFile := "sample.spec.ts"
    feature := "shop"
    tags := []
    environment := "local"
    browser := "chromium"
    startedAt := 1000
    completedAt := none
    duration := none
    status := RunStatus.started
    retryCount := 0 }

/-- A concrete enabled recorder, fresh from the constructor. -/
def sampleManager : MCPContextManager :=
  mkMCPContextManager sampleMetadata {} "/repo" "t0"

/-- `sampleManager` after one `startStep` call (ordinal 1 issued). -/
def sampleStarted : MCPContextManager :=
  (startStep sampleManager "click" "press the buy button" none 10).1

/-- `sampleManager` after a successful `saveContext` (finalized, in the
spec's intended reading). -/
def afterSaveSample : MCPContextManager :=
  (saveContext sampleManager 2000 none).1

/-- A concrete run: three `startStep` calls with a completion and a failure
interleaved. -/
def opsSample : List (MCPOp × Nat) :=
  [(MCPOp.startStepOp "goto" "open home page" none, 10),
   (MCPOp.completeStepOp 1 (some 5) none, 20),
   (MCPOp.startStepOp "click" "open cart" none, 30),
   (MCPOp.failStepOp 2 "element not found" none, 40),
   (MCPOp.startStepOp "fill" "enter email" none, 50)]

end MCP

namespace MCP

/-- C6: Within one recorder instance built by the constructor with an enabled
configuration, the ordinals returned by successive `startStep` calls across
any interleaving of recorder calls are exactly `1, 2, 3, ...` — strictly
increasing from 1, one per `startStep` call, never reused — regardless of
whether previously started steps are later completed or failed. -/
theorem startStep_ordinals_strictly_increasing (testMetadata : TestMetadata)
    (cfg : PartialMCPConfig) (cwd timestamp : String)
    (ops : List (MCPOp × Nat))
    (h : (mkMCPContextManager testMetadata cfg cwd timestamp).config.enabled = true) :
    (runOps (mkMCPContextManager testMetadata cfg cwd timestamp) ops).2 =
      List.range' 1 (countStartSteps ops) :=
  runOps_ordinals ops (mkMCPContextManager testMetadata cfg cwd timestamp) h

/-- Closed witness for `startStep_ordinals_strictly_increasing`: a run with
three `startStep` calls, a completion and a failure interleaved, returns
ordinals 1, 2, 3. -/
theorem startStep_ordinals_strictly_increasing_witness :
    (runOps (mkMCPContextManager sampleMetadata {} "/repo" "t0") opsSample).2 =
      [1, 2, 3] :=
  (startStep_ordinals_strictly_increasing sampleMetadata {} "/repo" "t0"
    opsSample rfl).trans (by decide)

/-- `find`-style first-match update: when no element matches, the list is
returned unchanged. -/
theorem updateFirstStep_not_found (p : TestStep → Bool) (f : TestStep → TestStep) :
    ∀ l : List TestStep, (∀ s ∈ l, p s = false) → updateFirstStep p f l = l := by
  intro l
  induction l with
  | nil => intro _; rfl
  | cons s rest ih =>
    intro h
    have hs : p s = false := h s (by simp)
    simp [updateFirstStep, hs, ih (fun t ht => h t (by simp [ht]))]

/-- C7 counterexample: calling `failStep` with the never-issued ordinal 5 on
a fresh recorder (which has issued no ordinals at all) changes the recorder's
state — it is not a no-op, refuting the claim at this concrete input. -/
theorem failStep_unknown_ordinal_mutates :
    failStep sampleManager 5 "boom" none 2000 ≠ sampleManager := by
  decide

/-- C7 amended: for an ordinal never issued, `completeStep` is a no-op
(state unchanged); `failStep` neither throws nor mutates any existing step,
but — when the recorder is enabled — appends one error entry carrying its
message and the unknown ordinal to the run's error list (it is a no-op only
when the recorder is disabled). -/
theorem unknown_ordinal_behavior (m : MCPContextManager) (n : Nat)
    (d : Option Nat) (md md2 : Option Meta) (e : String) (now : Nat)
    (h : ∀ s ∈ m.context.steps, s.stepNumber ≠ n) :
    completeStep m n d md = m ∧
    (failStep m n e md2 now).context.steps = m.context.steps ∧
    (m.config.enabled = true →
      failStep m n e md2 now =
        { m with context := { m.context with
            errors := m.context.errors ++
              [{ message := e, stack := none, timestamp := now, step := some n }] } }) ∧
    (m.config.enabled = false → failStep m n e md2 now = m) := by
  have hfalse : ∀ s ∈ m.context.steps, (fun s => s.stepNumber == n) s = false := by
    intro s hs
    simpa using h s hs
  have hupd : ∀ f, updateFirstStep (fun s => s.stepNumber == n) f m.context.steps
      = m.context.steps :=
    fun f => updateFirstStep_not_found _ f m.context.steps hfalse
  cases hb : m.config.enabled with
  | false =>
    refine ⟨by simp [completeStep, hb], by simp [failStep, hb], ?_, ?_⟩
    · intro hc; exact absurd hc (by simp [hb])
    · intro _; simp [failStep, hb]
  | true =>
    refine ⟨?_, ?_, ?_, ?_⟩
    · simp only [completeStep, hb, Bool.not_true, Bool.false_eq_true, if_false, hupd]
    · simp only [failStep, addError, hb, Bool.not_true, Bool.false_eq_true,
        if_false, hupd]
    · intro _
      simp only [failStep, addError, hb, Bool.not_true, Bool.false_eq_true,
        if_false, hupd]
    · intro hc; exact absurd hc (by simp [hb])

/-- Closed witness for `unknown_ordinal_behavior`: a recorder holding the
single issued ordinal 1, called with the never-issued ordinal 5. -/
theorem unknown_ordinal_behavior_witness :
    completeStep sampleStarted 5 none none = sampleStarted ∧
    (failStep sampleStarted 5 "boom" none 99).context.steps =
      sampleStarted.context.steps ∧
    (sampleStarted.config.enabled = true →
      failStep sampleStarted 5 "boom" none 99 =
        { sampleStarted with context := { sampleStarted.context with
            errors := sampleStarted.context.errors ++
              [{ message := "boom", stack := none, timestamp := 99,
                 step := some 5 }] } }) ∧
    (sampleStarted.config.enabled = false →
      failStep sampleStarted 5 "boom" none 99 = sampleStarted) :=
  unknown_ordinal_behavior sampleStarted 5 none none none "boom" 99 (by decide)

/-- C4 counterexample: after a successful `saveContext` (the finalize call),
a subsequent `startStep` call still changes the recorded state — the code
keeps no finalized flag, so mutators after finalization are not no-ops,
refuting the claim at this concrete input. -/
theorem mutator_after_finalize_not_noop :
    (startStep afterSaveSample "click" "open cart" none 3000).1 ≠
      afterSaveSample := by
  decide

/-- C4 amended: mutator calls after `saveContext` do not throw but keep
mutating the recorded state exactly as before (the recorder has no finalized
flag); a second `saveContext`, however, does not produce a second artifact
file: every artifact path either the first or the second call writes is the
single per-run `contextFilePath` fixed at construction, the second write
overwriting the first. -/
theorem finalize_single_artifact_path (m : MCPContextManager) (t1 t2 : Nat)
    (we1 we2 : Option String) (p : String)
    (h : (saveContext m t1 we1).2 = some p ∨
         (saveContext (saveContext m t1 we1).1 t2 we2).2 = some p) :
    p = m.contextFilePath := by
  cases h with
  | inl h1 => exact saveContext_writes_only_filePath m t1 we1 p h1
  | inr h2 =>
    have hp := saveContext_writes_only_filePath (saveContext m t1 we1).1 t2 we2 p h2
    rw [hp, (saveContext_preserves m t1 we1).2.2]

/-- Closed witness for `finalize_single_artifact_path`: the artifact the
first save of `sampleManager` writes is its fixed per-run path. -/
theorem finalize_single_artifact_path_witness :
    "/repo/mcp/context/test-contexts/sample-test-t0.json" =
      sampleManager.contextFilePath :=
  finalize_single_artifact_path sampleManager 2000 3000 none none
    "/repo/mcp/context/test-contexts/sample-test-t0.json"
    (Or.inl (by decide))

/-- C5 counterexample: finalizing a run whose metadata status is still the
initial `started` stamps `completedAt` but leaves the status `started` —
`saveContext` never writes a final status into the metadata, refuting the
claim at this concrete input. -/
theorem saveContext_does_not_stamp_status :
    (saveContext sampleManager 2000 none).1.context.metadata.completedAt =
      some 2000 ∧
    (saveContext sampleManager 2000 none).1.context.metadata.status =
      RunStatus.started := by
  decide

/-- C5 amended: on an enabled recorder, `saveContext` stamps
`completedAt := now` into the metadata and computes the run's total duration
`completedAt - startedAt` into the persisted record's
`performance.totalDuration`; it copies the previous `performance.totalDuration`
into `metadata.duration` and does not stamp any final status — the metadata
status is left exactly as the callers set it before finalizing. -/
theorem saveContext_stamps_completedAt_and_duration (m : MCPContextManager)
    (now : Nat) (we : Option String) (h : m.config.enabled = true) :
    (saveContext m now we).1.context.metadata.completedAt = some now ∧
    (saveContext m now we).1.context.performance.totalDuration =
      (now : Int) - (m.context.metadata.startedAt : Int) ∧
    (saveContext m now we).1.context.metadata.duration =
      some m.context.performance.totalDuration ∧
    (saveContext m now we).1.context.metadata.status =
      m.context.metadata.status := by
  cases we <;> refine ⟨?_, ?_, ?_, ?_⟩ <;> simp [saveContext, saveContextBody, h]

/-- Closed witness for `saveContext_stamps_completedAt_and_duration` on the
sample recorder (startedAt 1000, saved at 2000). -/
theorem saveContext_stamps_completedAt_and_duration_witness :
    (saveContext sampleManager 2000 none).1.context.metadata.completedAt =
      some 2000 ∧
    (saveContext sampleManager 2000 none).1.context.performance.totalDuration =
      (2000 : Int) - (sampleManager.context.metadata.startedAt : Int) ∧
    (saveContext sampleManager 2000 none).1.context.metadata.duration =
      some sampleManager.context.performance.totalDuration ∧
    (saveContext sampleManager 2000 none).1.context.metadata.status =
      sampleManager.context.metadata.status :=
  saveContext_stamps_completedAt_and_duration sampleManager 2000 none rfl

/-- C8: on an enabled recorder, when serialization or the artifact write
throws (here the error `e`), the `try` block of `saveContext` does raise that
very error, yet `saveContext` returns normally — with the in-place metadata
mutations retained and no artifact reported — and the state it returns is the
same as on a successful write: the failure never propagates to the caller. -/
theorem save_failure_swallowed (m : MCPContextManager) (now : Nat) (e : String)
    (h : m.config.enabled = true) :
    (saveContextBody m now (some e)).2 = Except.error e ∧
    saveContext m now (some e) = ((saveContextBody m now (some e)).1, none) ∧
    (saveContext m now (some e)).1 = (saveContext m now none).1 := by
  refine ⟨rfl, ?_, ?_⟩ <;> simp [saveContext, saveContextBody, h]

/-- Closed witness for `save_failure_swallowed`: the sample recorder with a
write that throws "EACCES". -/
theorem save_failure_swallowed_witness :
    (saveContextBody sampleManager 2000 (some "EACCES")).2 =
      Except.error "EACCES" ∧
    saveContext sampleManager 2000 (some "EACCES") =
      ((saveContextBody sampleManager 2000 (some "EACCES")).1, none) ∧
    (saveContext sampleManager 2000 (some "EACCES")).1 =
      (saveContext sampleManager 2000 none).1 :=
  save_failure_swallowed sampleManager 2000 "EACCES" rfl

/-- C10: a recorder constructed with `config.enabled = false` has every
mutator leave its state unchanged — `startStep` returns the never-issued
ordinal 0 without recording a step — and `saveContext` writes no artifact. -/
theorem disabled_recorder_frame (testMetadata : TestMetadata)
    (cfg : PartialMCPConfig) (cwd timestamp : String) (m : MCPContextManager)
    (hcfg : cfg.enabled = some false)
    (hm : m = mkMCPContextManager testMetadata cfg cwd timestamp)
    (action description : String) (md0 : Option Meta) (t0 : Nat)
    (n : Nat) (d : Option Nat) (md1 : Option Meta)
    (n2 : Nat) (e : String) (md2 : Option Meta) (t2 : Nat)
    (api : APIContext) (desc : String) (passed : Bool) (ae : Option String)
    (t3 : Nat) (msg : String) (st : Option Nat) (stk : Option String)
    (t4 : Nat) (sp : String) (url : String) (lt : Nat)
    (upd : PartialTestMetadata) (t5 : Nat) (we : Option String) :
    m.config.enabled = false ∧
    startStep m action description md0 t0 = (m, 0) ∧
    completeStep m n d md1 = m ∧
    failStep m n2 e md2 t2 = m ∧
    addAPICall m api = m ∧
    addAssertion m desc passed ae t3 = m ∧
    addError m msg st stk t4 = m ∧
    addScreenshot m sp = m ∧
    recordPageLoadTime m url lt = m ∧
    updateMetadata m upd = m ∧
    saveContext m t5 we = (m, none) := by
  have hen : m.config.enabled = false := by
    rw [hm]
    simp [mkMCPContextManager, mergeConfig, hcfg]
  refine ⟨hen, ?_, ?_, ?_, ?_, ?_, ?_, ?_, ?_, ?_, ?_⟩
  · simp [startStep, hen]
  · simp [completeStep, hen]
  · simp [failStep, hen]
  · simp [addAPICall, hen]
  · simp [addAssertion, hen]
  · simp [addError, hen]
  · simp [addScreenshot, hen]
  · simp [recordPageLoadTime, hen]
  · simp [updateMetadata, hen]
  · simp [saveContext, hen]

/-- Closed witness for `disabled_recorder_frame`: a recorder built with
`enabled := false` at concrete arguments. -/
theorem disabled_recorder_frame_witness :
    (mkMCPContextManager sampleMetadata { enabled := some false } "/repo"
      "t0").config.enabled = false ∧
    startStep (mkMCPContextManager sampleMetadata { enabled := some false }
      "/repo" "t0") "goto" "open home page" none 10 =
      (mkMCPContextManager sampleMetadata { enabled := some false } "/repo"
        "t0", 0) ∧
    completeStep (mkMCPContextManager sampleMetadata { enabled := some false }
      "/repo" "t0") 1 none none =
      mkMCPContextManager sampleMetadata { enabled := some false } "/repo"
        "t0" ∧
    failStep (mkMCPContextManager sampleMetadata { enabled := some false }
      "/repo" "t0") 1 "boom" none 20 =
      mkMCPContextManager sampleMetadata { enabled := some false } "/repo"
        "t0" ∧
    addAPICall (mkMCPContextManager sampleMetadata { enabled := some false }
      "/repo" "t0")
      { requestId := "r1", method := "GET", url := "/api/x",
        requestHeaders := none, requestBody := none, responseStatus := some 200,
        responseHeaders := none, responseBody := none, timestamp := 30,
        duration := some 7 } =
      mkMCPContextManager sampleMetadata { enabled := some false } "/repo"
        "t0" ∧
    addAssertion (mkMCPContextManager sampleMetadata { enabled := some false }
      "/repo" "t0") "title ok" true none 40 =
      mkMCPContextManager sampleMetadata { enabled := some false } "/repo"
        "t0" ∧
    addError (mkMCPContextManager sampleMetadata { enabled := some false }
      "/repo" "t0") "oops" none none 50 =
      mkMCPContextManager sampleMetadata { enabled := some false } "/repo"
        "t0" ∧
    addScreenshot (mkMCPContextManager sampleMetadata { enabled := some false }
      "/repo" "t0") "shot.png" =
      mkMCPContextManager sampleMetadata { enabled := some false } "/repo"
        "t0" ∧
    recordPageLoadTime (mkMCPContextManager sampleMetadata
      { enabled := some false } "/repo" "t0") "/home" 120 =
      mkMCPContextManager sampleMetadata { enabled := some false } "/repo"
        "t0" ∧
    updateMetadata (mkMCPContextManager sampleMetadata
      { enabled := some false } "/repo" "t0") {} =
      mkMCPContextManager sampleMetadata { enabled := some false } "/repo"
        "t0" ∧
    saveContext (mkMCPContextManager sampleMetadata { enabled := some false }
      "/repo" "t0") 60 none =
      (mkMCPContextManager sampleMetadata { enabled := some false } "/repo"
        "t0", none) :=
  disabled_recorder_frame sampleMetadata { enabled := some false } "/repo"
    "t0" (mkMCPContextManager sampleMetadata { enabled := some false } "/repo"
      "t0") rfl rfl "goto" "open home page" none 10 1 none none 1 "boom" none
    20
    { requestId := "r1", method := "GET", url := "/api/x",
      requestHeaders := none, requestBody := none, responseStatus := some 200,
      responseHeaders := none, responseBody := none, timestamp := 30,
      duration := some 7 }
    "title ok" true none 40 "oops" none none 50 "shot.png" "/home" 120 {} 60
    none

end MCP
